import Mathlib

/-!
Shallow embedding of `tools/utils/ats_xdmf.py` (ATS XDMF visualization reader).

Coordinates and times are modelled as rationals (the code only compares,
averages and rounds them); numpy arrays become lists; Python exceptions become
`Option`/`Except` results.  `structuredOrdering` sorts a numpy structured array
by a field list; numpy's sort by fields is lexicographic on the listed fields
(tie order among fully-equal keys is unspecified by numpy's default quicksort,
and no theorem below depends on it), modelled here by an insertion sort on the
same lexicographic key.
-/

namespace AtsXdmf

/-- The coordinate-axis field names `'x'`, `'y'`, `'z'` of the structured
array built inside `structuredOrdering`. -/
inductive Axis where
  | x : Axis
  | y : Axis
  | z : Axis
deriving DecidableEq, Repr

/-- Column index of an axis field in a coordinate row. -/
def axisIdx : Axis → Nat
  | .x => 0
  | .y => 1
  | .z => 2

/-- The value of field `a` of coordinate row `p`. -/
def axisVal (p : List ℚ) (a : Axis) : ℚ := p.getD (axisIdx a) 0

/-- Lines 371-377 of `ats_xdmf.py`: copy `order`, insert `'x'` at the front if
missing, then `'y'`, then (for data with more than 2 columns) `'z'`. -/
def effectiveOrder (dim : Nat) (order : List Axis) : List Axis :=
  let o1 := if Axis.x ∈ order then order else Axis.x :: order
  let o2 := if Axis.y ∈ o1 then o1 else Axis.y :: o1
  if 2 < dim then (if Axis.z ∈ o2 then o2 else Axis.z :: o2) else o2

/-- Lexicographic comparison of two coordinate rows by the field list `ord`,
i.e. the order realised by `coords_a.sort(order=ord)` on the non-`id` fields. -/
def keyLE : List Axis → List ℚ → List ℚ → Prop
  | [], _, _ => True
  | a :: rest, p, q =>
      axisVal p a < axisVal q a ∨ (axisVal p a = axisVal q a ∧ keyLE rest p q)

instance keyLE.instDecidable : (ord : List Axis) → (p q : List ℚ) →
    Decidable (keyLE ord p q)
  | [], _, _ => isTrue trivial
  | _ :: rest, p, q =>
    haveI : Decidable (keyLE rest p q) := keyLE.instDecidable rest p q
    inferInstanceAs (Decidable (_ ∨ _ ∧ _))

/-- The fields present in the structured array `coords_a`: `id,x,y,z` for 3-column
input, `id,x,y` for 2-column input, nothing otherwise (the code leaves `coords_a`
unbound for any other width). -/
def dimFields : Nat → List Axis
  | 3 => [Axis.x, Axis.y, Axis.z]
  | 2 => [Axis.x, Axis.y]
  | _ => []

/-- Lines 391-394: rebuild an output coordinate row from the sorted structured
array's `x`, `y` (and for 3-column data `z`) fields. -/
def rebuild (dim : Nat) (p : List ℚ) : List ℚ :=
  if dim = 3 then [axisVal p .x, axisVal p .y, axisVal p .z]
  else [axisVal p .x, axisVal p .y]

/-- Lines 379-387: the structured-array records `(i, coordinates[i])`. -/
def recsOf (C : List (List ℚ)) : List (Nat × List ℚ) :=
  (List.range C.length).map (fun i => (i, C.getD i []))

/-- Line 388, `coords_a.sort(order=order)`: sort the records lexicographically
by the listed fields. -/
def sortRecs (ord : List Axis) (recs : List (Nat × List ℚ)) : List (Nat × List ℚ) :=
  recs.insertionSort (fun p q => keyLE ord p.2 q.2)

/-- Lines 334-395, `structuredOrdering(coordinates, order)`.  Returns `none`
where the Python raises: input width other than 2 or 3 (unbound `coords_a`),
or a sort field absent from the structured array (`ValueError` from numpy). -/
def structuredOrdering (C : List (List ℚ)) (order : List Axis) :
    Option (List (List ℚ) × List Nat) :=
  let dim := (C.headD []).length
  let ord := effectiveOrder dim order
  if (dim = 3 ∨ dim = 2) ∧ ∀ a ∈ ord, a ∈ dimFields dim then
    let sorted := sortRecs ord (recsOf C)
    some (sorted.map (fun r => rebuild dim r.2), sorted.map Prod.fst)
  else none

/-- The rows of `l` are non-decreasing in column `j`. -/
def nonDecreasingIn (j : Nat) (l : List (List ℚ)) : Prop :=
  l.Chain' (fun p q => p.getD j 0 ≤ q.getD j 0)

instance (j : Nat) (l : List (List ℚ)) : Decidable (nonDecreasingIn j l) :=
  inferInstanceAs (Decidable (l.Chain' _))

/-- A numpy array as handed to `reorder`: either a 1D single-cycle vector
or a 2D (cycles × elements) matrix. -/
inductive NDArray where
  | one : List ℚ → NDArray
  | two : List (List ℚ) → NDArray
deriving DecidableEq, Repr

/-- The rows of the array after the `np.expand_dims(data, 0)` normalisation
of `reorder` (line 416): a 1D vector becomes a one-row matrix. -/
def NDArray.rows : NDArray → List (List ℚ)
  | .one v => [v]
  | .two a => a

/-- Whether the array is 1D (`reorder`'s `flatten` flag, line 414). -/
def NDArray.isVector : NDArray → Bool
  | .one _ => true
  | .two _ => false

/-- Entry `d[c, i]` (for a 1D array, `d[i]`, any `c`). -/
def NDArray.item (d : NDArray) (c i : Nat) : ℚ :=
  (d.rows.getD c []).getD i 0

/-- Lines 398-426, `reorder(data, map)`: expand a 1D input to one row, take
`data[:, map]`, and flatten back. -/
def reorder (data : NDArray) (m : List Nat) : NDArray :=
  let picked := data.rows.map (fun row => m.map (fun j => row.getD j 0))
  match data with
  | .one _ => .one (picked.headD [])
  | .two _ => .two picked

/-- numpy's default `atol` for `np.isclose`. -/
def npAtol : ℚ := 1 / 100000000

/-- `np.isclose(a, b, rtol)` with its third positional argument: the
*relative* tolerance.  True iff `|a - b| <= atol + rtol * |b|`. -/
def npIsClose (rtol a b : ℚ) : Bool := |a - b| ≤ npAtol + rtol * |b|

/-- `np.argwhere(pred)[0]` over positions of `l`: the first index satisfying
`pred`, `none` when there is no match (Python raises `IndexError`). -/
def firstIndexWhere (pred : ℚ → Bool) (l : List ℚ) : Option Nat :=
  (List.range l.length).find? (fun i => pred (l.getD i 0))

/-- Lines 112-138, `VisFile.filterTimes(times, eps)` restricted to the index
computation: for each requested time `t`, the first position `i` with
`np.isclose(self.times, t, eps)[i]` — note `eps` lands in `np.isclose`'s
`rtol` slot.  `none` when some requested time has no match. -/
def filterTimesInds (times : List ℚ) (req : List ℚ) (eps : ℚ) : Option (List Nat) :=
  match req with
  | [] => some []
  | t :: rest =>
    match firstIndexWhere (fun a => npIsClose eps a t) times, filterTimesInds times rest eps with
    | some i, some l => some (i :: l)
    | _, _ => none

/-- Lines 112-138 composed with `filterIndices`: the narrowed `times` array. -/
def filterTimes (times : List ℚ) (req : List ℚ) (eps : ℚ) : Option (List ℚ) :=
  (filterTimesInds times req eps).map (fun inds => inds.map (times.getD · 0))

/-- The elementwise test of `self.cycles == c` (line 109).  `self.cycles` is
built by `loadTimes` (line 71) as `np.array(sorted(self.d[a_field].keys(),
key=int))` — a *unicode*-dtype array of the store's sub-key strings — while
`c` is an integer (the documented argument type of `filterCycles`).  numpy
equality between a unicode array and an integer scalar matches no element
(an all-`False` mask; older numpy versions a scalar `False`), whatever the
strings hold, so the test is `false` for every entry. -/
def npUnicodeEqInt (_key : String) (_c : ℤ) : Bool := false

/-- `np.argwhere(self.cycles == c)[0]` of `filterCycles`: the first index of
the `self.cycles == c` mask, `none` when there is no match (Python raises
`IndexError`). -/
def firstIndexOf (cycles : List String) (c : ℤ) : Option Nat :=
  (List.range cycles.length).find? (fun i => npUnicodeEqInt (cycles.getD i "") c)

/-- Line 109 of `VisFile.filterCycles`: one index per requested cycle, in the
requested order; `none` as soon as a requested cycle has no match. -/
def filterCyclesInds (cycles : List String) (req : List ℤ) : Option (List Nat) :=
  match req with
  | [] => some []
  | c :: rest =>
    match firstIndexOf cycles c, filterCyclesInds cycles rest with
    | some i, some l => some (i :: l)
    | _, _ => none

/-- Lines 91-110, `VisFile.filterCycles(cycles)` composed with
`filterIndices`: the cycle and time arrays narrowed in lock-step. -/
def filterCycles (cycles : List String) (times : List ℚ) (req : List ℤ) :
    Option (List String × List ℚ) :=
  (filterCyclesInds cycles req).map
    (fun inds => (inds.map (cycles.getD · ""), inds.map (times.getD · 0)))

/-- The supported element types of the `elem_type` enum (lines 236-240). -/
inductive ElemType where
  | QUAD : ElemType
  | PRISM : ElemType
  | HEX : ElemType
  | TRIANGLE : ElemType
deriving DecidableEq, Repr

/-- The `elem_type` dict: 5→QUAD, 8→PRISM, 9→HEX, 4→TRIANGLE; `none` models
the `KeyError` on any other tag. -/
def elemTypeOfTag (t : ℤ) : Option ElemType :=
  if t = 5 then some .QUAD
  else if t = 8 then some .PRISM
  else if t = 9 then some .HEX
  else if t = 4 then some .TRIANGLE
  else none

/-- Lines 279-286: nodes per element for each element type. -/
def nnodesPerElem : ElemType → Nat
  | .PRISM => 6
  | .HEX => 8
  | .QUAD => 4
  | .TRIANGLE => 3

/-- The Python exceptions the reader can raise.  `formatError` is the
`ValueError('This reader only processes single-element-type meshes.')`;
`broadcastError` is numpy's `ValueError` on a mismatched row assignment. -/
inductive PyErr where
  | indexError : PyErr
  | keyError : PyErr
  | formatError : PyErr
  | broadcastError : PyErr
deriving DecidableEq, Repr

/-- `elem_conn.reshape((n_elems, k))` (line 293): the `n` consecutive
`k`-slot rows of the flat buffer. -/
def reshapeRows (l : List ℤ) (k : Nat) (n : Nat) : List (List ℤ) :=
  (List.range n).map (fun i => ((l.drop (i * k)).take k))

/-- Lines 242-296, `xyz(...)`, with the store access abstracted to its three
datasets: the flat `MixedElements` first column `elem_conn`, the `NodeMap`
first column, and the `Nodes` rows.  Returns the element type, the node
dict (as the zipped association list) and the reshaped connectivity. -/
def xyz (elem_conn : List ℤ) (nodeMap : List ℤ) (nodes : List (List ℚ)) :
    Except PyErr (ElemType × List (ℤ × List ℚ) × List (List ℤ)) :=
  match elem_conn.head? with
  | none => .error .indexError
  | some t0 =>
    match elemTypeOfTag t0 with
    | none => .error .keyError
    | some etype =>
      let k := nnodesPerElem etype + 1
      if elem_conn.length % k ≠ 0 then .error .formatError
      else
        let conn := reshapeRows elem_conn k (elem_conn.length / k)
        if conn.any (fun row => row.headD 0 ≠ t0) then .error .formatError
        else .ok (etype, nodeMap.zip nodes, conn)

/-- `coords[gid]` where `coords = dict(zip(nodeMap, nodes))`: the *last*
binding of `gid` wins, as in a Python dict built from duplicate keys. -/
def dictGet (assoc : List (ℤ × List ℚ)) (g : ℤ) : Option (List ℚ) :=
  assoc.reverse.lookup g

/-- `np.array([coords[gid] for gid in elem[1:]])`: all node lookups of one
element, `none` on the first `KeyError`. -/
def getCoords (assoc : List (ℤ × List ℚ)) : List ℤ → Option (List (List ℚ))
  | [] => some []
  | g :: gs =>
    match dictGet assoc g, getCoords assoc gs with
    | some r, some rs => some (r :: rs)
    | _, _ => none

/-- `np.mean(elem_coords, axis=0)` for a (rows × columns) table of uniform
row length: the per-column arithmetic mean. -/
def meanCols (rows : List (List ℚ)) : List ℚ :=
  (List.range (rows.headD []).length).map
    (fun j => (rows.map (fun r => r.getD j 0)).sum / (rows.length : ℚ))

/-- `centroids[i,:] = elem_z` (line 330) where `centroids` has exactly 3
columns (line 326): succeeds for a 3-vector, broadcasts a 1-vector, and
raises numpy's broadcast `ValueError` for any other length. -/
def assignRow3 (zrow : List ℚ) : Except PyErr (List ℚ) :=
  if zrow.length = 3 then .ok zrow
  else if zrow.length = 1 then .ok (List.replicate 3 (zrow.headD 0))
  else .error .broadcastError

/-- `np.round` half-to-even (banker's rounding) of a rational to an integer. -/
def roundHalfEven (q : ℚ) : ℤ :=
  if q - ⌊q⌋ < 1/2 then ⌊q⌋
  else if 1/2 < q - ⌊q⌋ then ⌊q⌋ + 1
  else if ⌊q⌋ % 2 = 0 then ⌊q⌋ else ⌊q⌋ + 1

/-- `np.round(x, d)`: round to `d` decimal places, ties to even. -/
def roundTo (d : Nat) (q : ℚ) : ℚ := (roundHalfEven (q * 10 ^ d) : ℚ) / 10 ^ d

/-- The loop of lines 327-330 followed by the final `np.round` of line 331,
one centroid row per connectivity row; errors abort the loop as the Python
exceptions do. -/
def centroidRows (assoc : List (ℤ × List ℚ)) (rnd : Nat) :
    List (List ℤ) → Except PyErr (List (List ℚ))
  | [] => .ok []
  | elem :: rest =>
    match getCoords assoc (elem.drop 1) with
    | none => .error .keyError
    | some ecoords =>
      match assignRow3 (meanCols ecoords), centroidRows assoc rnd rest with
      | .ok row, .ok rows => .ok (row.map (roundTo rnd) :: rows)
      | .error e, _ => .error e
      | .ok _, .error e => .error e

/-- Lines 299-331, `elemCentroids(...)` over the abstracted store datasets. -/
def elemCentroids (elem_conn : List ℤ) (nodeMap : List ℤ) (nodes : List (List ℚ))
    (rnd : Nat) : Except PyErr (List (List ℚ)) :=
  match xyz elem_conn nodeMap nodes with
  | .error e => .error e
  | .ok (_, assoc, conn) => centroidRows assoc rnd conn

instance instDecidableEqExcept {ε α : Type} [DecidableEq ε] [DecidableEq α] :
    DecidableEq (Except ε α)
  | .error e, .error f =>
    if h : e = f then isTrue (by rw [h]) else isFalse (fun hh => h (by cases hh; rfl))
  | .error _, .ok _ => isFalse (fun hh => Except.noConfusion hh)
  | .ok _, .error _ => isFalse (fun hh => Except.noConfusion hh)
  | .ok a, .ok b =>
    if h : a = b then isTrue (by rw [h]) else isFalse (fun hh => h (by cases hh; rfl))

/-! ## Helper lemmas about the lexicographic key order and the sort -/

lemma keyLE_total : ∀ (ord : List Axis) (p q : List ℚ), keyLE ord p q ∨ keyLE ord q p
  | [], _, _ => Or.inl trivial
  | a :: rest, p, q => by
    show (_ ∨ _ ∧ _) ∨ (_ ∨ _ ∧ _)
    rcases lt_trichotomy (axisVal p a) (axisVal q a) with h | h | h
    · exact Or.inl (Or.inl h)
    · rcases keyLE_total rest p q with h2 | h2
      · exact Or.inl (Or.inr ⟨h, h2⟩)
      · exact Or.inr (Or.inr ⟨h.symm, h2⟩)
    · exact Or.inr (Or.inl h)

lemma keyLE_trans : ∀ (ord : List Axis) (p q r : List ℚ),
    keyLE ord p q → keyLE ord q r → keyLE ord p r
  | [], _, _, _ => fun _ _ => trivial
  | a :: rest, p, q, r => by
    show (_ ∨ _ ∧ _) → (_ ∨ _ ∧ _) → (_ ∨ _ ∧ _)
    rintro (h1 | ⟨e1, k1⟩) (h2 | ⟨e2, k2⟩)
    · exact Or.inl (h1.trans h2)
    · exact Or.inl (e2 ▸ h1)
    · exact Or.inl (e1 ▸ h2)
    · exact Or.inr ⟨e1.trans e2, keyLE_trans rest p q r k1 k2⟩

lemma keyLE_congr : ∀ (ord : List Axis) (p p' q q' : List ℚ),
    (∀ a ∈ ord, axisVal p' a = axisVal p a) →
    (∀ a ∈ ord, axisVal q' a = axisVal q a) →
    keyLE ord p q → keyLE ord p' q'
  | [], _, _, _, _, _, _, _ => trivial
  | a :: rest, p, p', q, q', hp, hq, h => by
    have hpa := hp a (List.mem_cons_self a rest)
    have hqa := hq a (List.mem_cons_self a rest)
    have hp' : ∀ b ∈ rest, axisVal p' b = axisVal p b :=
      fun b hb => hp b (List.mem_cons_of_mem a hb)
    have hq' : ∀ b ∈ rest, axisVal q' b = axisVal q b :=
      fun b hb => hq b (List.mem_cons_of_mem a hb)
    rcases h with h | ⟨e, k⟩
    · exact Or.inl (by rw [hpa, hqa]; exact h)
    · exact Or.inr ⟨by rw [hpa, hqa]; exact e, keyLE_congr rest p p' q q' hp' hq' k⟩

lemma axisVal_rebuild {dim : Nat} (hdim : dim = 3 ∨ dim = 2) (v : List ℚ)
    {a : Axis} (ha : a ∈ dimFields dim) : axisVal (rebuild dim v) a = axisVal v a := by
  rcases hdim with h | h <;> subst h <;> simp only [dimFields] at ha
  · rcases List.mem_cons.1 ha with rfl | ha2
    · simp [rebuild, axisVal, axisIdx]
    rcases List.mem_cons.1 ha2 with rfl | ha3
    · simp [rebuild, axisVal, axisIdx]
    rcases List.mem_cons.1 ha3 with rfl | ha4
    · simp [rebuild, axisVal, axisIdx]
    · cases ha4
  · rcases List.mem_cons.1 ha with rfl | ha2
    · simp [rebuild, axisVal, axisIdx]
    rcases List.mem_cons.1 ha2 with rfl | ha3
    · simp [rebuild, axisVal, axisIdx]
    · cases ha3

lemma rebuild_eq_self {dim : Nat} (hdim : dim = 3 ∨ dim = 2) {v : List ℚ}
    (hv : v.length = dim) : rebuild dim v = v := by
  rcases hdim with h | h <;> subst h
  · match v, hv with
    | [a, b, c], _ => simp [rebuild, axisVal, axisIdx]
  · match v, hv with
    | [a, b], _ => simp [rebuild, axisVal, axisIdx]

lemma length_recsOf (C : List (List ℚ)) : (recsOf C).length = C.length := by
  simp [recsOf]

lemma map_fst_recsOf (C : List (List ℚ)) :
    (recsOf C).map Prod.fst = List.range C.length := by
  simp [recsOf, List.map_map, Function.comp_def]

lemma mem_recsOf {C : List (List ℚ)} {p : Nat × List ℚ} (h : p ∈ recsOf C) :
    p.1 < C.length ∧ p.2 = C.getD p.1 [] := by
  simp only [recsOf, List.mem_map, List.mem_range] at h
  obtain ⟨i, hi, rfl⟩ := h
  exact ⟨hi, rfl⟩

lemma perm_sortRecs (ord : List Axis) (recs : List (Nat × List ℚ)) :
    List.Perm (sortRecs ord recs) recs :=
  List.perm_insertionSort _ _

lemma sorted_sortRecs (ord : List Axis) (recs : List (Nat × List ℚ)) :
    List.Sorted (fun p q : Nat × List ℚ => keyLE ord p.2 q.2) (sortRecs ord recs) := by
  haveI : IsTotal (Nat × List ℚ) (fun p q => keyLE ord p.2 q.2) :=
    ⟨fun p q => keyLE_total ord p.2 q.2⟩
  haveI : IsTrans (Nat × List ℚ) (fun p q => keyLE ord p.2 q.2) :=
    ⟨fun p q r => keyLE_trans ord p.2 q.2 r.2⟩
  exact List.sorted_insertionSort _ _

lemma structuredOrdering_some {C : List (List ℚ)} {order : List Axis}
    {O : List (List ℚ)} {M : List Nat}
    (h : structuredOrdering C order = some (O, M)) :
    ((C.headD []).length = 3 ∨ (C.headD []).length = 2) ∧
    (∀ a ∈ effectiveOrder (C.headD []).length order, a ∈ dimFields (C.headD []).length) ∧
    O = (sortRecs (effectiveOrder (C.headD []).length order) (recsOf C)).map
          (fun r => rebuild (C.headD []).length r.2) ∧
    M = (sortRecs (effectiveOrder (C.headD []).length order) (recsOf C)).map Prod.fst := by
  simp only [structuredOrdering] at h
  split at h
  · rename_i hc
    rw [Option.some.injEq, Prod.mk.injEq] at h
    exact ⟨hc.1, hc.2, h.1.symm, h.2.symm⟩
  · exact Option.noConfusion h

lemma getD_row_length {C : List (List ℚ)}
    (hrows : ∀ r ∈ C, r.length = (C.headD []).length) {j : Nat} (hj : j < C.length) :
    (C.getD j []).length = (C.headD []).length := by
  rw [List.getD_eq_getElem _ _ hj]
  exact hrows _ (List.getElem_mem _)

lemma sorted_output {C : List (List ℚ)} {order : List Axis}
    {O : List (List ℚ)} {M : List Nat}
    (h : structuredOrdering C order = some (O, M)) :
    List.Sorted (keyLE (effectiveOrder (C.headD []).length order)) O := by
  obtain ⟨hdim, hfields, hO, hM⟩ := structuredOrdering_some h
  set dim := (C.headD []).length
  set ord := effectiveOrder dim order
  have hsorted := sorted_sortRecs ord (recsOf C)
  rw [hO]
  refine List.pairwise_map.2 (hsorted.imp ?_)
  intro p q hpq
  exact keyLE_congr ord p.2 (rebuild dim p.2) q.2 (rebuild dim q.2)
    (fun a ha => axisVal_rebuild hdim p.2 (hfields a ha))
    (fun a ha => axisVal_rebuild hdim q.2 (hfields a ha)) hpq

lemma effectiveOrder_eq (dim : Nat) (A : List Axis) :
    effectiveOrder dim A =
      (if 2 < dim ∧ Axis.z ∉ A then [Axis.z] else []) ++
      (if Axis.y ∉ A then [Axis.y] else []) ++
      (if Axis.x ∉ A then [Axis.x] else []) ++ A := by
  unfold effectiveOrder
  by_cases hx : Axis.x ∈ A <;> by_cases hy : Axis.y ∈ A <;>
    by_cases hz : Axis.z ∈ A <;> by_cases hd : 2 < dim <;>
    simp [hx, hy, hz, hd, List.mem_cons]

section Claims

attribute [local semireducible] Rat.add Rat.sub Rat.mul Rat.inv

/-- Claim C1: for every coordinate array `C` (rows of uniform width) and axis
list `A`, when `structuredOrdering C A` returns `(O, M)`, the reconstruction
invariant `O[i] = C[M[i]]` holds for every index `i` below `N`, and `O` and
`M` both have length `N`. -/
theorem structuredOrdering_reconstruction (C : List (List ℚ)) (A : List Axis)
    (O : List (List ℚ)) (M : List Nat)
    (hrows : ∀ r ∈ C, r.length = (C.headD []).length)
    (h : structuredOrdering C A = some (O, M)) :
    O.length = C.length ∧ M.length = C.length ∧
    ∀ i < C.length, O.getD i [] = C.getD (M.getD i 0) [] := by
  obtain ⟨hdim, hfields, hO, hM⟩ := structuredOrdering_some h
  set dim := (C.headD []).length with hdimdef
  set s := sortRecs (effectiveOrder dim A) (recsOf C) with hs
  have hsl : s.length = C.length := ((perm_sortRecs _ _).length_eq).trans (length_recsOf C)
  have hOl : O.length = C.length := by rw [hO, List.length_map, hsl]
  have hMl : M.length = C.length := by rw [hM, List.length_map, hsl]
  refine ⟨hOl, hMl, ?_⟩
  intro i hi
  have his : i < s.length := by rw [hsl]; exact hi
  have hmem : s[i] ∈ s := List.getElem_mem _
  have hmem2 : s[i] ∈ recsOf C := ((perm_sortRecs _ _).mem_iff).1 hmem
  obtain ⟨hlt, hrow⟩ := mem_recsOf hmem2
  have hOi : O.getD i [] = rebuild dim (s[i]).2 := by
    rw [hO, List.getD_eq_getElem _ _ (by rw [List.length_map]; exact his), List.getElem_map]
  have hMi : M.getD i 0 = (s[i]).1 := by
    rw [hM, List.getD_eq_getElem _ _ (by rw [List.length_map]; exact his), List.getElem_map]
  rw [hOi, hMi, hrow]
  exact rebuild_eq_self hdim (getD_row_length hrows hlt)

/-- Witness for C1 at a concrete 3D input: sorting `[[0,0,1],[0,0,0]]` by
`['z']` gives `O = [[0,0,0],[0,0,1]]`, `M = [1,0]`, and `O[0] = C[M[0]]`. -/
theorem structuredOrdering_reconstruction_witness :
    ([[0, 0, 0], [0, 0, 1]] : List (List ℚ)).getD 0 [] =
      ([[0, 0, 1], [0, 0, 0]] : List (List ℚ)).getD (([1, 0] : List Nat).getD 0 0) [] :=
  (structuredOrdering_reconstruction [[0, 0, 1], [0, 0, 0]] [Axis.z]
    [[0, 0, 0], [0, 0, 1]] [1, 0] (by decide) (by decide)).2.2 0 (by decide)

/-- Claim C2: whenever `structuredOrdering C A` returns `(O, M)`, the map `M`
is a permutation of `0..N-1`. -/
theorem structuredOrdering_map_perm (C : List (List ℚ)) (A : List Axis)
    (O : List (List ℚ)) (M : List Nat)
    (h : structuredOrdering C A = some (O, M)) :
    List.Perm M (List.range C.length) := by
  obtain ⟨_, _, _, hM⟩ := structuredOrdering_some h
  rw [hM, ← map_fst_recsOf]
  exact (perm_sortRecs _ _).map Prod.fst

/-- Witness for C2 at a concrete 3D input: the returned map `[1, 0]` is a
permutation of `range 2`. -/
theorem structuredOrdering_map_perm_witness :
    List.Perm [1, 0] (List.range 2) :=
  structuredOrdering_map_perm [[0, 0, 1], [0, 0, 0]] [Axis.z]
    [[0, 0, 0], [0, 0, 1]] [1, 0] (by decide)

/-- Claim C3: the effective sort-key sequence is the caller's axis list with
`x`, then `y`, then (3D only) `z` inserted at the front when absent — so the
implicit axes rank `z`, `y`, `x` and all precede the explicit ones — and the
composite sort is lexicographic over that effective sequence. -/
theorem effectiveOrder_prepend_and_lex (dim : Nat) (C : List (List ℚ))
    (A : List Axis) (O : List (List ℚ)) (M : List Nat) :
    (effectiveOrder dim A =
      (if 2 < dim ∧ Axis.z ∉ A then [Axis.z] else []) ++
      (if Axis.y ∉ A then [Axis.y] else []) ++
      (if Axis.x ∉ A then [Axis.x] else []) ++ A) ∧
    (structuredOrdering C A = some (O, M) →
      List.Sorted (keyLE (effectiveOrder (C.headD []).length A)) O) :=
  ⟨effectiveOrder_eq dim A, fun h => sorted_output h⟩

/-- Witness for C3 at `dim = 3`, `A = ['z']` and a concrete 3D input. -/
theorem effectiveOrder_prepend_and_lex_witness :
    (effectiveOrder 3 [Axis.z] =
      (if 2 < 3 ∧ Axis.z ∉ [Axis.z] then [Axis.z] else []) ++
      (if Axis.y ∉ [Axis.z] then [Axis.y] else []) ++
      (if Axis.x ∉ [Axis.z] then [Axis.x] else []) ++ [Axis.z]) ∧
    List.Sorted (keyLE (effectiveOrder
      (([[0, 0, 1], [0, 0, 0]] : List (List ℚ)).headD []).length [Axis.z]))
      [[0, 0, 0], [0, 0, 1]] :=
  ⟨(effectiveOrder_prepend_and_lex 3 [[0, 0, 1], [0, 0, 0]] [Axis.z]
      [[0, 0, 0], [0, 0, 1]] [1, 0]).1,
   (effectiveOrder_prepend_and_lex 3 [[0, 0, 1], [0, 0, 0]] [Axis.z]
      [[0, 0, 0], [0, 0, 1]] [1, 0]).2 (by decide)⟩

/-- Counterexample to C4 as stated: on the 3D input `[(0,0,5), (1,0,0)]`,
`structuredOrdering(C, ['z'])` returns the rows unchanged (the effective sort
key is `y, x, z`, and the `x` components already ascend), so the output is
*not* non-decreasing in the z-component. -/
theorem structuredOrdering_z_not_z_sorted :
    structuredOrdering [[0, 0, 5], [1, 0, 0]] [Axis.z] =
      some ([[0, 0, 5], [1, 0, 0]], [0, 1]) ∧
    ¬ nonDecreasingIn 2 [[0, 0, 5], [1, 0, 0]] := by
  refine ⟨by decide, fun hc => ?_⟩
  have h5 : (5 : ℚ) ≤ 0 := by
    simpa [nonDecreasingIn, List.chain'_cons, List.getD] using hc
  norm_num at h5

/-- Claim C4 (amended): for 3D input, `structuredOrdering(C, ['z'])` returns
`O` sorted lexicographically with `y` primary, `x` secondary and `z` tertiary;
`O` is non-decreasing in the z-component only within groups of equal `y` and
`x`. -/
theorem structuredOrdering_z_lex_yxz (C : List (List ℚ))
    (O : List (List ℚ)) (M : List Nat) (hdim3 : (C.headD []).length = 3)
    (h : structuredOrdering C [Axis.z] = some (O, M)) :
    List.Sorted (keyLE [Axis.y, Axis.x, Axis.z]) O := by
  have hs := sorted_output h
  rw [hdim3] at hs
  exact hs

/-- Witness for C4 (amended) at the concrete input of the counterexample. -/
theorem structuredOrdering_z_lex_yxz_witness :
    List.Sorted (keyLE [Axis.y, Axis.x, Axis.z]) [[0, 0, 5], [1, 0, 0]] :=
  structuredOrdering_z_lex_yxz [[0, 0, 5], [1, 0, 0]]
    [[0, 0, 5], [1, 0, 0]] [0, 1] (by decide) (by decide)

/-- Claim C5 evaluated at its own example (the code diverges from it):
`eps` is passed into `np.isclose`'s *relative*-tolerance slot, so on loaded
times `[1.0, 4.6, 9.0]` every entry is within `1e-8 + 1.0·|5.0|` of `5.0`,
and `argwhere(...)[0]` selects index 0 — the narrowed time array is `[1.0]`,
not `[4.6]` — even though `1.0` is not within the absolute tolerance `1.0`
of `5.0` while `4.6` is. -/
theorem filterTimes_rtol_divergence :
    filterTimes [1, 23/5, 9] [5] 1 = some [1] ∧
    filterTimesInds [1, 23/5, 9] [5] 1 = some [0] ∧
    ¬ (|(1 : ℚ) - 5| ≤ 1) ∧ |(23 : ℚ)/5 - 5| ≤ 1 := by decide

/-- Claim C7 evaluated at its failing input (the code diverges from it): the
cycle index loaded by `loadTimes` holds the store's *sub-key strings*, so the
lookup `self.cycles == c` of `filterCycles` compares a unicode array with the
integer `c` (the documented argument type) and matches nothing; requesting
cycle `100` — present in the index as the sub-key `'100'` — therefore fails
with an empty match (`argwhere(...)[0]` raises `IndexError`) instead of
narrowing the index to that cycle. -/
theorem filterCycles_present_cycle_empty_match :
    "100" ∈ ["0", "100"] ∧
    filterCycles ["0", "100"] [0, 1] [100] = none := by decide

lemma getD_map_of_lt {α β : Type} (l : List α) (f : α → β) {i : Nat}
    (h : i < l.length) (d : α) (d' : β) :
    (l.map f).getD i d' = f (l.getD i d) := by
  rw [List.getD_eq_getElem _ _ (by simpa using h), List.getElem_map,
    List.getD_eq_getElem _ _ h]

lemma reorder_rows (d : NDArray) (m : List Nat) :
    (reorder d m).rows = d.rows.map (fun row => m.map (fun j => row.getD j 0)) := by
  cases d <;> rfl

lemma reorder_isVector (d : NDArray) (m : List Nat) :
    (reorder d m).isVector = d.isVector := by
  cases d <;> rfl

/-- Claim C9: for data that is 1D of length `N` or 2D with rows of length
`N`, and a map of length `N` with entries below `N`, `reorder` keeps the
dimensionality and the cycle count, gives every row length `N`, and permutes
along the element axis only: `result[..., i] = data[..., map[i]]`. -/
theorem reorder_spec (d : NDArray) (m : List Nat) (N : Nat)
    (_hrows : ∀ r ∈ d.rows, r.length = N)
    (hlen : m.length = N) (_hbound : ∀ j ∈ m, j < N) :
    (reorder d m).isVector = d.isVector ∧
    (reorder d m).rows.length = d.rows.length ∧
    (∀ r ∈ (reorder d m).rows, r.length = N) ∧
    ∀ c < d.rows.length, ∀ i < N,
      (reorder d m).item c i = d.item c (m.getD i 0) := by
  refine ⟨reorder_isVector d m, ?_, ?_, ?_⟩
  · rw [reorder_rows, List.length_map]
  · intro r hr
    rw [reorder_rows] at hr
    obtain ⟨row, _, rfl⟩ := List.mem_map.1 hr
    simpa using hlen
  · intro c hc i hi
    rw [NDArray.item, NDArray.item, reorder_rows,
      getD_map_of_lt d.rows _ hc []]
    exact getD_map_of_lt m _ (hlen ▸ hi) 0 0

/-- Witness for C9 on the 2×2 matrix `[[1,2],[3,4]]` with map `[1,0]`:
`result[0, 0] = data[0, map[0]]`. -/
theorem reorder_spec_witness :
    (reorder (NDArray.two [[1, 2], [3, 4]]) [1, 0]).item 0 0 =
      (NDArray.two [[1, 2], [3, 4]]).item 0 (([1, 0] : List Nat).getD 0 0) :=
  (reorder_spec (NDArray.two [[1, 2], [3, 4]]) [1, 0] 2
    (by decide) (by decide) (by decide)).2.2.2 0 (by decide) 0 (by decide)

lemma headD_take_drop (l : List ℤ) (m k : Nat) (hk : 0 < k) :
    ((l.drop m).take k).headD 0 = l.getD m 0 := by
  rw [List.headD_eq_head?, List.head?_take, if_neg (Nat.pos_iff_ne_zero.1 hk),
    List.head?_drop, List.getD_eq_getElem?_getD]

lemma any_reshapeRows_headD {ec : List ℤ} {k n : Nat} (hk : 0 < k) {t0 : ℤ} :
    ((reshapeRows ec k n).any (fun row => row.headD 0 ≠ t0) = true) ↔
      ∃ i, i < n ∧ ec.getD (i * k) 0 ≠ t0 := by
  rw [List.any_eq_true]
  constructor
  · rintro ⟨row, hrow, hp⟩
    simp only [reshapeRows, List.mem_map, List.mem_range] at hrow
    obtain ⟨i, hi, rfl⟩ := hrow
    rw [decide_eq_true_eq, headD_take_drop ec (i * k) k hk] at hp
    exact ⟨i, hi, hp⟩
  · rintro ⟨i, hi, hne⟩
    refine ⟨(ec.drop (i * k)).take k, ?_, ?_⟩
    · simp only [reshapeRows, List.mem_map, List.mem_range]
      exact ⟨i, hi, rfl⟩
    · rw [decide_eq_true_eq, headD_take_drop ec (i * k) k hk]
      exact hne

/-- Claim C6: given a nonempty connectivity buffer whose leading tag is a
supported element type, `xyz` fails with the format error exactly when the
buffer length is not divisible by `nodesPerElement + 1` or some element's
leading tag differs from the first element's tag. -/
theorem xyz_formatError_iff (ec nm : List ℤ) (ns : List (List ℚ)) (t0 : ℤ)
    (et : ElemType) (h0 : ec.head? = some t0) (ht : elemTypeOfTag t0 = some et) :
    xyz ec nm ns = .error .formatError ↔
      ec.length % (nnodesPerElem et + 1) ≠ 0 ∨
      ∃ i, i < ec.length / (nnodesPerElem et + 1) ∧
        ec.getD (i * (nnodesPerElem et + 1)) 0 ≠ t0 := by
  have hxyz : xyz ec nm ns =
      (if ec.length % (nnodesPerElem et + 1) ≠ 0 then Except.error PyErr.formatError
       else if (reshapeRows ec (nnodesPerElem et + 1)
                  (ec.length / (nnodesPerElem et + 1))).any
                (fun row => row.headD 0 ≠ t0) then Except.error PyErr.formatError
       else Except.ok (et, nm.zip ns,
              reshapeRows ec (nnodesPerElem et + 1)
                (ec.length / (nnodesPerElem et + 1)))) := by
    simp only [xyz, h0, ht]
  rw [hxyz]
  by_cases hmod : ec.length % (nnodesPerElem et + 1) ≠ 0
  · rw [if_pos hmod]
    exact ⟨fun _ => Or.inl hmod, fun _ => rfl⟩
  · rw [if_neg hmod]
    by_cases hany : (reshapeRows ec (nnodesPerElem et + 1)
        (ec.length / (nnodesPerElem et + 1))).any
        (fun row => row.headD 0 ≠ t0) = true
    · rw [if_pos hany]
      exact ⟨fun _ => Or.inr ((any_reshapeRows_headD (Nat.succ_pos _)).1 hany),
             fun _ => rfl⟩
    · rw [if_neg hany]
      constructor
      · intro h
        exact Except.noConfusion h
      · rintro (h | h)
        · exact absurd h hmod
        · exact absurd ((any_reshapeRows_headD (Nat.succ_pos _)).2 h) hany

/-- Witness for C6: the two-QUAD buffer `[5,0,1,2,3, 4,0,1,2,3]` has its
second element tagged `4 ≠ 5`, so `xyz` raises the format error. -/
theorem xyz_formatError_iff_witness :
    xyz [5, 0, 1, 2, 3, 4, 0, 1, 2, 3] [] [] = .error .formatError :=
  (xyz_formatError_iff [5, 0, 1, 2, 3, 4, 0, 1, 2, 3] [] [] 5 ElemType.QUAD
    (by decide) (by decide)).2 (Or.inr ⟨1, by decide, by decide⟩)

lemma meanCols_length (rows : List (List ℚ)) :
    (meanCols rows).length = (rows.headD []).length := by
  simp [meanCols]

lemma centroidRows_ok {assoc : List (ℤ × List ℚ)} {rnd : Nat} :
    ∀ {conn : List (List ℤ)} {cs : List (List ℚ)},
      centroidRows assoc rnd conn = .ok cs →
      cs.length = conn.length ∧
      ∀ i < conn.length, ∀ ecoords,
        getCoords assoc ((conn.getD i []).drop 1) = some ecoords →
        (ecoords.headD []).length = 3 →
        cs.getD i [] = (meanCols ecoords).map (roundTo rnd)
  | [], cs, h => by
    obtain rfl : ([] : List (List ℚ)) = cs := by
      simpa [centroidRows] using h
    exact ⟨rfl, fun i hi => absurd hi (Nat.not_lt_zero i)⟩
  | elem :: rest, cs, h => by
    rw [centroidRows] at h
    split at h
    next hg => exact Except.noConfusion h
    next e0 hg =>
      split at h
      next row rows ha hr =>
        obtain rfl : row.map (roundTo rnd) :: rows = cs := Except.ok.inj h
        obtain ⟨ihlen, ihspec⟩ := centroidRows_ok hr
        refine ⟨by simp [ihlen], ?_⟩
        intro i hi ecoords hget hhead3
        cases i with
        | zero =>
          simp only [List.getD_cons_zero] at hget ⊢
          rw [hg] at hget
          obtain rfl : e0 = ecoords := Option.some.inj hget
          have hlen3 : (meanCols e0).length = 3 := by
            rw [meanCols_length, hhead3]
          have hassign : assignRow3 (meanCols e0) = .ok (meanCols e0) := by
            rw [assignRow3, if_pos hlen3]
          rw [hassign] at ha
          rw [← Except.ok.inj ha]
        | succ j =>
          simp only [List.getD_cons_succ] at hget ⊢
          exact ihspec j (Nat.lt_of_succ_lt_succ hi) ecoords hget hhead3
      next e ha => exact Except.noConfusion h
      next a e ha hr => exact Except.noConfusion h

/-- Claim C8: `elemCentroids` returns one centroid per element, each the
unweighted arithmetic mean of the element's node coordinates with every
component rounded to `rnd` decimal places. -/
theorem elemCentroids_mean (ec nm : List ℤ) (ns : List (List ℚ)) (rnd : Nat)
    (et : ElemType) (assoc : List (ℤ × List ℚ)) (conn : List (List ℤ))
    (cs : List (List ℚ)) (i : Nat) (ecoords : List (List ℚ))
    (hx : xyz ec nm ns = .ok (et, assoc, conn))
    (hres : elemCentroids ec nm ns rnd = .ok cs)
    (hi : i < conn.length)
    (hget : getCoords assoc ((conn.getD i []).drop 1) = some ecoords)
    (hrows : ∀ r ∈ ecoords, r.length = 3) (hne : ecoords ≠ []) :
    cs.length = conn.length ∧
    cs.getD i [] = (List.range 3).map (fun j =>
      roundTo rnd ((ecoords.map (fun r => r.getD j 0)).sum / (ecoords.length : ℚ))) := by
  have hcent : centroidRows assoc rnd conn = .ok cs := by
    rw [elemCentroids, hx] at hres
    exact hres
  obtain ⟨hlen, hspec⟩ := centroidRows_ok hcent
  have hhead3 : (ecoords.headD []).length = 3 := by
    cases ecoords with
    | nil => exact absurd rfl hne
    | cons r rs => exact hrows r (List.mem_cons_self r rs)
  refine ⟨hlen, ?_⟩
  rw [hspec i hi ecoords hget hhead3, meanCols, hhead3, List.map_map]
  rfl

/-- Witness for C8: a single QUAD with nodes `(0,0,0),(2,0,0),(2,2,0),(0,2,0)`
yields the centroid `(1.0, 1.0, 0.0)`. -/
theorem elemCentroids_mean_witness :
    elemCentroids [5, 0, 1, 2, 3] [0, 1, 2, 3]
        [[0, 0, 0], [2, 0, 0], [2, 2, 0], [0, 2, 0]] 5 = .ok [[1, 1, 0]] ∧
    ([[1, 1, 0]] : List (List ℚ)).getD 0 [] = (List.range 3).map (fun j =>
      roundTo 5 ((([[0, 0, 0], [2, 0, 0], [2, 2, 0], [0, 2, 0]] : List (List ℚ)).map
        (fun r => r.getD j 0)).sum /
        (([[0, 0, 0], [2, 0, 0], [2, 2, 0], [0, 2, 0]] : List (List ℚ)).length : ℚ))) :=
  ⟨by decide,
   (elemCentroids_mean [5, 0, 1, 2, 3] [0, 1, 2, 3]
     [[0, 0, 0], [2, 0, 0], [2, 2, 0], [0, 2, 0]] 5
     ElemType.QUAD [(0, [0, 0, 0]), (1, [2, 0, 0]), (2, [2, 2, 0]), (3, [0, 2, 0])]
     [[5, 0, 1, 2, 3]] [[1, 1, 0]] 0
     [[0, 0, 0], [2, 0, 0], [2, 2, 0], [0, 2, 0]]
     (by decide) (by decide) (by decide) (by decide) (by decide) (by decide)).2⟩

/-- Claim C10 evaluated at a planar mesh (the code diverges from it): on a
single triangle with 2D node coordinates, the code's hard-coded 3-column
centroid array makes the row assignment `centroids[i,:] = elem_z` a numpy
broadcast error instead of returning 2-component centroids. -/
theorem elemCentroids_planar_broadcast :
    elemCentroids [4, 0, 1, 2] [0, 1, 2] [[0, 0], [1, 0], [0, 1]] 5 =
      .error .broadcastError := by decide

end Claims

end AtsXdmf
